import Mathlib

/-!
Verification development for the graph construction core of `kubectl-graph`
(`pkg/graph/graph.go`).  The Go code is embedded shallowly:

* Go maps are modelled as association lists (`List (key × value)`) with
  map-assignment (`alInsert`) and lookup (`alLookup`); the three-level nested
  node map `map[cluster]map[namespace]map[uid]*Node` is flattened to a single
  association list keyed by the composite `(cluster, namespace, uid)` triple,
  which preserves its lookup/assignment semantics (the intermediate
  `make(...)` calls in `Graph.Node` only materialise empty levels and never
  create node entries).
* The cluster hostname obtained from the REST client
  (`g.clientset.RESTClient().Get().URL().Hostname()`) is an immutable
  collaborator value; it is passed explicitly as a `hostname` parameter.
* `types.UID` and all other string-like Go types are `String`.
* Go byte strings are `List Nat` (each element < 256), produced from Lean
  strings by UTF-8 encoding.
-/

set_option maxRecDepth 100000

namespace KubectlGraph

/-! ### Association-list model of Go maps -/

/-- Go map lookup `m[k]` (with `ok` as `Option`). -/
def alLookup {α β : Type} [DecidableEq α] : List (α × β) → α → Option β
  | [], _ => none
  | (k', v) :: rest, k => if k' = k then some v else alLookup rest k

/-- Go map assignment `m[k] = v`: replaces the binding if present, otherwise
appends a new one. -/
def alInsert {α β : Type} [DecidableEq α] : List (α × β) → α → β → List (α × β)
  | [], k, v => [(k, v)]
  | (k', v') :: rest, k, v =>
    if k' = k then (k, v) :: rest else (k', v') :: alInsert rest k v

/-! ### GroupVersionKind helpers (k8s.io/apimachinery `schema`)

`graph.go` relies on three helpers of the `schema` package; they are
reproduced here from their (stable, well-known) implementations:
`ParseGroupVersion`, `FromAPIVersionAndKind`, `GroupVersionKind.ToAPIVersionAndKind`
and `GroupKind.String`. -/

structure GroupVersionKind where
  group : String
  version : String
  kind : String
deriving DecidableEq, Repr

/-- Split a character list at every occurrence of `c` (the behaviour of
`strings.SplitN`-style splitting used to separate `group/version`; written
with structural recursion so it reduces inside the kernel). -/
def splitOnChar (c : Char) (l : List Char) : List (List Char) :=
  l.foldr (fun x acc =>
    if x = c then [] :: acc
    else match acc with
      | [] => [[x]]
      | a :: as => (x :: a) :: as) [[]]

/-- Models `schema.ParseGroupVersion`: `""` and `"/"` parse to the empty
group/version; no slash means version only; one slash splits group/version;
more slashes are an error (`none`). -/
def parseGroupVersion (apiVersion : String) : Option (String × String) :=
  if apiVersion = "" ∨ apiVersion = "/" then some ("", "")
  else
    match splitOnChar '/' apiVersion.data with
    | [v] => some ("", String.mk v)
    | [g, v] => some (String.mk g, String.mk v)
    | _ => none

/-- Models `schema.FromAPIVersionAndKind`: on a parse error the group and version
are left empty. -/
def fromAPIVersionAndKind (apiVersion kind : String) : GroupVersionKind :=
  match parseGroupVersion apiVersion with
  | some (g, v) => ⟨g, v, kind⟩
  | none => ⟨"", "", kind⟩

/-- Models `GroupVersionKind.Empty()`. -/
def GroupVersionKind.isEmpty (gvk : GroupVersionKind) : Prop :=
  gvk.group = "" ∧ gvk.version = "" ∧ gvk.kind = ""

instance (gvk : GroupVersionKind) : Decidable gvk.isEmpty := by
  unfold GroupVersionKind.isEmpty; infer_instance

/-- Models `GroupVersionKind.ToAPIVersionAndKind()`: empty GVK yields `("", "")`;
otherwise the apiVersion is `group/version` (or just `version` when the group
is empty) and the kind is returned unchanged. -/
def toAPIVersionAndKind (gvk : GroupVersionKind) : String × String :=
  if gvk.isEmpty then ("", "")
  else (if gvk.group = "" then gvk.version else gvk.group ++ "/" ++ gvk.version, gvk.kind)

/-- Models `GroupKind.String()`: `Kind` when the group is empty, else `Kind.group`. -/
def groupKindString (gvk : GroupVersionKind) : String :=
  if gvk.group = "" then gvk.kind else gvk.kind ++ "." ++ gvk.group

/-! ### Data model (`Node`, `Relationship`, `Graph`) -/

/-- The `Node` struct of `graph.go` (`Labels` is a Go `map[string]string`,
modelled as an association list of its entries).  The Go field `Namespace`
is `ns` here (`namespace` is a Lean keyword). -/
structure Node where
  apiVersion : String
  kind : String
  labels : List (String × String)
  name : String
  ns : String
  uid : String
deriving DecidableEq, Repr

/-- The two fields of `v1.ObjectReference` that `Graph.Relationship`
populates (`UID` and `Kind`). -/
structure ObjectReference where
  uid : String
  kind : String
deriving DecidableEq, Repr

/-- The `Relationship` struct.  The Go fields `From`, `Type`, `To`, `Attr` are
`fromRef`, `rtype`, `toRef`, `attr` (`from` is a Lean keyword, `Type` a
universe). -/
structure Relationship where
  fromRef : ObjectReference
  rtype : String
  toRef : ObjectReference
  attr : List (String × String)
deriving DecidableEq, Repr

/-- The `metav1.OwnerReference` structure (the fields read by `Graph.Node`). -/
structure OwnerReference where
  apiVersion : String
  kind : String
  name : String
  uid : String
deriving DecidableEq, Repr

/-- The `metav1.Object` view used by `Graph.Node`: cluster name, labels,
name, namespace, UID and owner references. -/
structure ObjectMeta where
  clusterName : String
  labels : List (String × String)
  name : String
  ns : String
  uid : String
  ownerReferences : List OwnerReference
deriving DecidableEq, Repr

/-- Identity key of the node registry: (cluster, namespace, UID). -/
abbrev NodeKey := String × String × String

/-- The `Graph` struct: node registry (flattened, see file comment) and
relationship registry.  The relationship map `map[types.UID][]*Relationship`
is flattened to one list; the per-from-UID buckets are the sublists sharing a
`fromRef.uid`, and flattening preserves the order of each bucket, which is all
`Graph.Relationship` observes. -/
structure Graph where
  nodes : List (NodeKey × Node)
  relationships : List Relationship
deriving DecidableEq, Repr

def Graph.empty : Graph := ⟨[], []⟩

/-! ### Graph.Relationship (graph.go lines 234-252) -/

/-- The fresh relationship built at lines 243-248. -/
def mkRelationship (fromN : Node) (label : String) (toN : Node) : Relationship :=
  ⟨⟨fromN.uid, fromN.kind⟩, label, ⟨toN.uid, toN.kind⟩, []⟩

/-- Models `Graph.Relationship`: scan the edge list of the source node for an edge with
the same target UID; return it unchanged if found, otherwise append a fresh
edge. -/
def graphRelationship (g : Graph) (fromN : Node) (label : String) (toN : Node) :
    Relationship × Graph :=
  match g.relationships.find? (fun r => r.fromRef.uid == fromN.uid && r.toRef.uid == toN.uid) with
  | some r => (r, g)
  | none =>
    let rel := mkRelationship fromN label toN
    (rel, { g with relationships := g.relationships ++ [rel] })

/-! ### Graph.Node (graph.go lines 187-231) -/

/-- The body of `Graph.Node` minus the owner-reference loop: cluster-name
defaulting (line 188-190), label inheritance from an existing entry under the
same identity key (lines 197-201), node construction (lines 203-211), the
Namespace-kind early return (lines 212-214) and the registry write
(line 216). -/
def graphNodeCore (hostname : String) (g : Graph) (gvk : GroupVersionKind)
    (obj : ObjectMeta) : Node × Graph :=
  let cluster := if obj.clusterName = "" then hostname else obj.clusterName
  let key : NodeKey := (cluster, obj.ns, obj.uid)
  let lbls := match alLookup g.nodes key with
    | some n => if n.labels ≠ [] then n.labels else obj.labels
    | none => obj.labels
  let avk := toAPIVersionAndKind gvk
  let node : Node := ⟨avk.1, avk.2, lbls, obj.name, obj.ns, obj.uid⟩
  if groupKindString gvk = "Namespace" then (node, g)
  else (node, { g with nodes := alInsert g.nodes key node })

/-- The `metav1.ObjectMeta` literal built for an owner reference at
lines 221-225: UID and name from the reference, the namespace of the child, and
everything else zero-valued. -/
def ownerMeta (ref : OwnerReference) (childNs : String) : ObjectMeta :=
  ⟨"", [], ref.name, childNs, ref.uid, []⟩

/-- Models `Graph.Node`: register the node, then walk the owner references,
registering a placeholder ancestor node and an edge (ancestor → child)
labelled with the kind of the child for each.  The recursive call
`g.Node(..., &metav1.ObjectMeta{...})` is on an object with no owner
references, on which the whole function reduces to `graphNodeCore`
(theorem `graphNode_of_no_ownerRefs` below), so it is written as
`graphNodeCore` here and the recursion disappears. -/
def graphNode (hostname : String) (g : Graph) (gvk : GroupVersionKind)
    (obj : ObjectMeta) : Node × Graph :=
  let c := graphNodeCore hostname g gvk obj
  if groupKindString gvk = "Namespace" then c
  else
    let node := c.1
    let g2 := obj.ownerReferences.foldl (fun gacc ref =>
      let oc := graphNodeCore hostname gacc
        (fromAPIVersionAndKind ref.apiVersion ref.kind) (ownerMeta ref obj.ns)
      (graphRelationship oc.2 oc.1 node.kind node).2) c.2
    (node, g2)

/-! ### Derived views of the graph operations (used by the theorems) -/

/-- The (from-UID, to-UID) pair, the identity the dedup check of
`Graph.Relationship` is keyed on. -/
def relKey (r : Relationship) : String × String := (r.fromRef.uid, r.toRef.uid)

/-- Whether some edge with the given source and target UIDs is registered
(the dedup test of `Graph.Relationship`, lines 235-241). -/
def hasRelKey (rels : List Relationship) (fu tu : String) : Bool :=
  rels.any (fun r => r.fromRef.uid == fu && r.toRef.uid == tu)

/-- The relationship-registry effect of one `Graph.Relationship` call. -/
def relInsert (rels : List Relationship) (r : Relationship) : List Relationship :=
  if hasRelKey rels r.fromRef.uid r.toRef.uid then rels else rels ++ [r]

/-- The relationship-registry effect of a sequence of calls. -/
def insertAll (rels : List Relationship) (L : List Relationship) : List Relationship :=
  L.foldl relInsert rels

/-- The edge records contributed by one `Graph.Node` call: nothing for a
Namespace-kind object, otherwise one record per owner reference, sourced at
the UID and kind of the reference and targeted at the child, labelled with the
kind of the child. -/
def relCalls (gvk : GroupVersionKind) (obj : ObjectMeta) : List Relationship :=
  if groupKindString gvk = "Namespace" then []
  else obj.ownerReferences.map (fun ref =>
    ⟨⟨ref.uid, (toAPIVersionAndKind (fromAPIVersionAndKind ref.apiVersion ref.kind)).2⟩,
     (toAPIVersionAndKind gvk).2, ⟨obj.uid, (toAPIVersionAndKind gvk).2⟩, []⟩)

/-- The (from-UID, to-UID, label) view of an edge. -/
def projRel (r : Relationship) : String × String × String :=
  (r.fromRef.uid, r.toRef.uid, r.rtype)

/-- The identity key an object resolves to in `Graph.Node` (cluster name
defaulted to the client hostname, namespace, UID). -/
def objKey (hostname : String) (obj : ObjectMeta) : NodeKey :=
  (if obj.clusterName = "" then hostname else obj.clusterName, obj.ns, obj.uid)

/-- The label set stored by `Graph.Node` (lines 197-201): an existing
non-empty label set under the same identity key wins over the candidate's
labels. -/
def inheritedLabels (hostname : String) (g : Graph) (obj : ObjectMeta) :
    List (String × String) :=
  match alLookup g.nodes (objKey hostname obj) with
  | some n => if n.labels ≠ [] then n.labels else obj.labels
  | none => obj.labels

/-- Whether the node registry holds an entry under a key. -/
def hasNodeKey (g : Graph) (k : NodeKey) : Bool := (alLookup g.nodes k).isSome

/-- A stored node representing the core-group Namespace kind: for nodes
built by `Graph.Node`, the apiVersion holds no `/` exactly when the GVK
group was empty. -/
def Node.isCoreNamespace (n : Node) : Prop :=
  n.kind = "Namespace" ∧ '/' ∉ n.apiVersion.data

instance (n : Node) : Decidable n.isCoreNamespace := by
  unfold Node.isCoreNamespace; infer_instance

/-! ### Labels.String / Attributes.String (graph.go lines 81-90, 104-112) -/

/-- Membership in the character class `[a-z0-9]`. -/
def isLowerAlnum (c : Char) : Bool :=
  (97 ≤ c.toNat && c.toNat ≤ 122) || (48 ≤ c.toNat && c.toNat ≤ 57)

/-- Models `regexp.MustCompile` of the class-complement-plus pattern followed by
`ReplaceAllString(s, "_")` (line 84): every maximal run of characters
outside `[a-z0-9]` becomes a single `_`.  `inRun` records whether the
previous character belonged to such a run (so the `_` was already
emitted). -/
def squashNonAlnum : Bool → List Char → List Char
  | _, [] => []
  | inRun, c :: rest =>
    if isLowerAlnum c then c :: squashNonAlnum false rest
    else if inRun then squashNonAlnum true rest
    else '_' :: squashNonAlnum true rest

/-- Applies `strings.ToLower` then the run replacement (line 84).  `Char.toLower`
lower-cases ASCII letters; the full Unicode case table of `strings.ToLower`
is immaterial to the claims proved here. -/
def normalizeLabelKey (k : String) : String :=
  String.mk (squashNonAlnum false (k.data.map Char.toLower))

/-- One rendered clause of `Labels.String` (line 85). -/
def labelClause (p : String × String) : String :=
  "node.Label_" ++ normalizeLabelKey p.1 ++ " = \"" ++ p.2 ++ "\""

/-- The sorted clause list of `Labels.String` (lines 82-88).  The Go
`for key, value := range labels` iteration order is unspecified; the map
entries are supplied as a list and `sort.StringSlice(...).Sort()` makes the
result independent of that order (lexicographic byte order on UTF-8 strings
coincides with the code-point order used by the `String` order of Lean). -/
def labelSelector (labels : List (String × String)) : List String :=
  List.insertionSort (· ≤ ·) (labels.map labelClause)

/-- Models `Labels.String` (lines 81-90). -/
def labelsString (labels : List (String × String)) : String :=
  String.intercalate ", " (labelSelector labels)

/-- One rendered clause of `Attributes.String` (line 107). -/
def attrClause (p : String × String) : String := p.1 ++ "=\"" ++ p.2 ++ "\""

/-- The sorted clause list of `Attributes.String` (lines 105-110). -/
def attrSelector (attr : List (String × String)) : List String :=
  List.insertionSort (· ≤ ·) (attr.map attrClause)

/-- Models `Attributes.String` (lines 104-112). -/
def attrsString (attr : List (String × String)) : String :=
  String.intercalate " " (attrSelector attr)

/-! ### MD5 (crypto/md5, used by ToUID)

A direct functional implementation of MD5 over byte lists (bytes are `Nat`
values reduced mod 256, words are `Nat` values reduced mod 2^32). -/

/-- Reduce to a 32-bit word. -/
def w32 (n : Nat) : Nat := n % 4294967296

/-- The 32-bit complement (arguments are always already reduced mod 2^32). -/
def wnot (x : Nat) : Nat := 4294967295 - w32 x

/-- The 32-bit left rotation. -/
def rotl32 (x s : Nat) : Nat := w32 ((x <<< s) ||| (x >>> (32 - s)))

/-- The 64 MD5 sine-derived constants. -/
def md5K : List Nat :=
  [0xd76aa478, 0xe8c7b756, 0x242070db, 0xc1bdceee,
   0xf57c0faf, 0x4787c62a, 0xa8304613, 0xfd469501,
   0x698098d8, 0x8b44f7af, 0xffff5bb1, 0x895cd7be,
   0x6b901122, 0xfd987193, 0xa679438e, 0x49b40821,
   0xf61e2562, 0xc040b340, 0x265e5a51, 0xe9b6c7aa,
   0xd62f105d, 0x02441453, 0xd8a1e681, 0xe7d3fbc8,
   0x21e1cde6, 0xc33707d6, 0xf4d50d87, 0x455a14ed,
   0xa9e3e905, 0xfcefa3f8, 0x676f02d9, 0x8d2a4c8a,
   0xfffa3942, 0x8771f681, 0x6d9d6122, 0xfde5380c,
   0xa4beea44, 0x4bdecfa9, 0xf6bb4b60, 0xbebfbc70,
   0x289b7ec6, 0xeaa127fa, 0xd4ef3085, 0x04881d05,
   0xd9d4d039, 0xe6db99e5, 0x1fa27cf8, 0xc4ac5665,
   0xf4292244, 0x432aff97, 0xab9423a7, 0xfc93a039,
   0x655b59c3, 0x8f0ccc92, 0xffeff47d, 0x85845dd1,
   0x6fa87e4f, 0xfe2ce6e0, 0xa3014314, 0x4e0811a1,
   0xf7537e82, 0xbd3af235, 0x2ad7d2bb, 0xeb86d391]

/-- The 64 per-round rotation amounts. -/
def md5S : List Nat :=
  [7, 12, 17, 22, 7, 12, 17, 22, 7, 12, 17, 22, 7, 12, 17, 22,
   5, 9, 14, 20, 5, 9, 14, 20, 5, 9, 14, 20, 5, 9, 14, 20,
   4, 11, 16, 23, 4, 11, 16, 23, 4, 11, 16, 23, 4, 11, 16, 23,
   6, 10, 15, 21, 6, 10, 15, 21, 6, 10, 15, 21, 6, 10, 15, 21]

/-- Little-endian byte serialization of `x` into `count` bytes. -/
def leBytes (x : Nat) (count : Nat) : List Nat :=
  (List.range count).map (fun i => (x >>> (8 * i)) % 256)

/-- MD5 padding: a `0x80` byte, zeros to 56 mod 64, then the bit length as
a 64-bit little-endian quantity. -/
def md5Pad (msg : List Nat) : List Nat :=
  let len := msg.length
  let k := (56 + 64 - ((len + 1) % 64)) % 64
  msg ++ [0x80] ++ List.replicate k 0 ++ leBytes (len * 8) 8

/-- Little-endian 32-bit word `j` of a 64-byte chunk. -/
def leWord (chunk : List Nat) (j : Nat) : Nat :=
  chunk.getD (4 * j) 0 + 256 * chunk.getD (4 * j + 1) 0 +
    65536 * chunk.getD (4 * j + 2) 0 + 16777216 * chunk.getD (4 * j + 3) 0

/-- One MD5 round (round index `i`, state `(a, b, c, d)`). -/
def md5Round (chunk : List Nat) (st : Nat × Nat × Nat × Nat) (i : Nat) :
    Nat × Nat × Nat × Nat :=
  let (a, b, c, d) := st
  let fg : Nat × Nat :=
    if i < 16 then ((b &&& c) ||| (wnot b &&& d), i)
    else if i < 32 then ((d &&& b) ||| (wnot d &&& c), (5 * i + 1) % 16)
    else if i < 48 then (Nat.xor b (Nat.xor c d), (3 * i + 5) % 16)
    else (Nat.xor c (b ||| wnot d), (7 * i) % 16)
  let f := w32 (fg.1 + a + md5K.getD i 0 + leWord chunk fg.2)
  (d, w32 (b + rotl32 f (md5S.getD i 0)), b, c)

/-- Process one 64-byte chunk. -/
def md5Chunk (st : Nat × Nat × Nat × Nat) (chunk : List Nat) : Nat × Nat × Nat × Nat :=
  let r := (List.range 64).foldl (md5Round chunk) st
  (w32 (st.1 + r.1), w32 (st.2.1 + r.2.1), w32 (st.2.2.1 + r.2.2.1), w32 (st.2.2.2 + r.2.2.2))

/-- Process `n` chunks of the (padded) message. -/
def md5Chunks (st : Nat × Nat × Nat × Nat) (msg : List Nat) : Nat → Nat × Nat × Nat × Nat
  | 0 => st
  | n + 1 => md5Chunks (md5Chunk st (msg.take 64)) (msg.drop 64) n

/-- Models `md5.Sum`: the 16-byte MD5 digest of a byte sequence. -/
def md5Bytes (msg : List Nat) : List Nat :=
  let padded := md5Pad msg
  let st := md5Chunks (0x67452301, 0xefcdab89, 0x98badcfe, 0x10325476) padded (padded.length / 64)
  leBytes st.1 4 ++ leBytes st.2.1 4 ++ leBytes st.2.2.1 4 ++ leBytes st.2.2.2 4

/-- Lower-case hexadecimal digit. -/
def hexDigitChar (n : Nat) : Char :=
  if n < 10 then Char.ofNat (48 + n) else Char.ofNat (87 + n)

/-- Two-digit lower-case hex rendering of one byte. -/
def byteHex (b : Nat) : List Char := [hexDigitChar (b / 16), hexDigitChar (b % 16)]

/-- UTF-8 encoding of one character (Go strings are UTF-8 byte sequences). -/
def utf8Bytes (c : Char) : List Nat :=
  let n := c.toNat
  if n < 0x80 then [n]
  else if n < 0x800 then [0xc0 ||| (n >>> 6), 0x80 ||| (n &&& 0x3f)]
  else if n < 0x10000 then
    [0xe0 ||| (n >>> 12), 0x80 ||| ((n >>> 6) &&& 0x3f), 0x80 ||| (n &&& 0x3f)]
  else
    [0xf0 ||| (n >>> 18), 0x80 ||| ((n >>> 12) &&& 0x3f),
     0x80 ||| ((n >>> 6) &&& 0x3f), 0x80 ||| (n &&& 0x3f)]

/-- The byte sequence of a Go string (`[]byte(s)`). -/
def strBytes (s : String) : List Nat := (s.data.map utf8Bytes).flatten

/-- Models the `fmt.Sprintf` percent-x rendering of `md5.Sum(bytes)`: lower-case hex of the digest. -/
def md5Hex (msg : List Nat) : String := String.mk ((md5Bytes msg).map byteHex).flatten

/-! ### ToUID (graph.go lines 115-133) -/

/-- Models `ToUID`.  Parameters are taken already stringified (`fmt.Sprint`).
Note: `input := make([]string, len(params))` allocates `len(params)` empty
strings and the loop then *appends* after them, so the joined string starts
with `len(params)` empty components, i.e. `len(params)` leading `"-"`
separators precede the parameter data. -/
def toUID (params : List String) : String :=
  let input := List.replicate params.length "" ++ params
  let md5sum := md5Hex (strBytes (String.intercalate "-" input))
  let cs := md5sum.data
  String.intercalate "-"
    [String.mk (cs.take 8), String.mk ((cs.drop 8).take 4),
     String.mk ((cs.drop 12).take 4), String.mk ((cs.drop 16).take 4),
     String.mk (cs.drop 20)]

/-- The hex digest `toUID` slices into groups: MD5 of the joined input
(including the `len(params)` leading empty components, see `toUID`). -/
def toUIDDigest (params : List String) : String :=
  md5Hex (strBytes (String.intercalate "-" (List.replicate params.length "" ++ params)))

/-- The sixteen lower-case hexadecimal digit characters. -/
def hexDigits : List Char := "0123456789abcdef".data

/-- Modelled from the spec (§4.1 Identity Generator), for comparison with
`toUID`: "stringify each parameter, join with a separator, compute a
content hash of the resulting byte sequence, and format the hash as a
hyphen-grouped hexadecimal token (8-4-4-4-12 hex digit groups)". -/
def toUID_specAlgorithm (params : List String) : String :=
  let md5sum := md5Hex (strBytes (String.intercalate "-" params))
  let cs := md5sum.data
  String.intercalate "-"
    [String.mk (cs.take 8), String.mk ((cs.drop 8).take 4),
     String.mk ((cs.drop 12).take 4), String.mk ((cs.drop 16).take 4),
     String.mk (cs.drop 20)]

/-! ### Serialization (graph.go lines 40-53, 261-276) -/

/-- Models `templates.ExecuteTemplate(w, format, g)` against the registry built by
`init()` (lines 50-53), which holds exactly the templates "cypher" and
"graphviz".  The template bodies (`templates/cypher.tmpl`,
`templates/graphviz.tmpl`) are embedded assets not present under src/, so
their output is abstracted as a `render` parameter.  Modelled from the
spec (§4.5): executing a registered template succeeds and writes its
output; an unregistered name errors before writing anything (text/template
`ExecuteTemplate` lookup semantics).  Returns (bytes written, error). -/
def executeTemplate (render : String → Graph → String) (format : String) (g : Graph) :
    String × Option String :=
  if format = "cypher" ∨ format = "graphviz" then (render format g, none)
  else ("", some ("template: no template \"" ++ format ++ "\" is defined"))

/-- Models `Graph.Write` (lines 269-276): execute the template into the writer and
return its error.  `Write` has a value receiver and only reads the graph,
so no graph state can be affected; only the error is surfaced. -/
def graphWrite (render : String → Graph → String) (g : Graph) (format : String) :
    Option String :=
  (executeTemplate render format g).2

/-- Models `Graph.String` (lines 261-266): render into a fresh buffer, discard the
error returned by `Write`, and return whatever the buffer holds. -/
def graphString (render : String → Graph → String) (g : Graph) (format : String) : String :=
  (executeTemplate render format g).1

/-! ### NewGraph / Graph.Unstructured (graph.go lines 146-184) -/

/-- An `unstructured.Unstructured` as consumed by `Graph.Unstructured`:
apiVersion, kind and object metadata (its `GroupVersionKind()` is
`fromAPIVersionAndKind apiVersion kind`). -/
structure UnstructuredObj where
  apiVersion : String
  kind : String
  meta : ObjectMeta
deriving DecidableEq, Repr

/-- One callback of an Extractor into the graph-builder primitives
(spec §4.4: an Extractor may call back into the node/edge
registration primitives of the Graph Builder). -/
inductive RegCall where
  | nodeCall (gvk : GroupVersionKind) (obj : ObjectMeta)
  | relCall (fromN : Node) (label : String) (toN : Node)
deriving DecidableEq, Repr

/-- Apply one registration callback. -/
def applyCall (hostname : String) (g : Graph) : RegCall → Graph
  | .nodeCall gvk obj => (graphNode hostname g gvk obj).2
  | .relCall f l t => (graphRelationship g f l t).2

/-- Modelled from the spec: the three Extractor implementations
(`CoreV1Graph`, `NetworkingV1Graph`, `RouteV1Graph`, referenced at
lines 153-155 and 176-180) are not under src/.  Per §4.4 an Extractor
exposes `Ingest(object) -> error` and may call back into the registration
primitives, so its behaviour on one object is modelled as a list of
registration calls plus an optional error. -/
abbrev ExtractorModel := UnstructuredObj → List RegCall × Option String

/-- The apiVersion values that select an Extractor (lines 174-181). -/
def dispatchedVersions : List String :=
  ["v1", "networking.k8s.io/v1", "route.openshift.io/v1"]

/-- Models `Graph.Unstructured` (lines 171-184): always register the generic node
(and its ownership edges) first, then dispatch on the apiVersion; an
unrecognized apiVersion yields no error. -/
def graphUnstructured (hostname : String) (ext : ExtractorModel) (g : Graph)
    (obj : UnstructuredObj) : Graph × Option String :=
  let g1 := (graphNode hostname g (fromAPIVersionAndKind obj.apiVersion obj.kind) obj.meta).2
  if obj.apiVersion ∈ dispatchedVersions then
    let r := ext obj
    (r.1.foldl (applyCall hostname) g1, r.2)
  else (g1, none)

/-- Models `NewGraph` (lines 146-168): fold over the whole batch, collecting one
error per failing object; ingestion never stops early.  The `processed()`
progress callback is pure observability and is omitted. -/
def newGraph (hostname : String) (ext : ExtractorModel) (objs : List UnstructuredObj) :
    Graph × List String :=
  objs.foldl (fun acc obj =>
    let r := graphUnstructured hostname ext acc.1 obj
    (r.1, match r.2 with | some e => acc.2 ++ [e] | none => acc.2)) (Graph.empty, [])

/-- Models `utilerrors.NewAggregate`: `nil` on an empty error list, otherwise the
aggregate of all collected errors. -/
def aggregateError (errs : List String) : Option (List String) :=
  if errs = [] then none else some errs

/-! ### Concrete objects used by examples, witnesses and counterexamples -/

/-- The Deployment D of the end-to-end example of the spec (§8). -/
def exDeployment : ObjectMeta :=
  ⟨"", [], "d", "default", "11111111-1111-1111-1111-111111111111", []⟩

/-- The ReplicaSet R of the same end-to-end example, whose single owner
reference points at D. -/
def exReplicaSet : ObjectMeta :=
  ⟨"", [], "r", "default", "22222222-2222-2222-2222-222222222222",
   [⟨"apps/v1", "Deployment", "d", "11111111-1111-1111-1111-111111111111"⟩]⟩

/-- The graph after ingesting D then R into an empty graph. -/
def exGraph : Graph :=
  (graphNode "host"
    (graphNode "host" Graph.empty (fromAPIVersionAndKind "apps/v1" "Deployment")
      exDeployment).2
    (fromAPIVersionAndKind "apps/v1" "ReplicaSet") exReplicaSet).2

/-- A child object whose UID coincides with the UID of its owner (`"u"`); its
owner reference names the owner `ceOwner` below. -/
def ceChild : ObjectMeta := ⟨"", [], "c", "n", "u", [⟨"v1", "B", "p", "u"⟩]⟩

/-- An owner object sharing the UID of the child, itself carrying an owner
reference to UID `"u"`. -/
def ceOwner : ObjectMeta := ⟨"", [], "p", "n", "u", [⟨"v1", "A", "c", "u"⟩]⟩

/-- Ingesting `ceChild` (kind A) then `ceOwner` (kind B). -/
def ceOrder1 : Graph :=
  (graphNode "h" (graphNode "h" Graph.empty (fromAPIVersionAndKind "v1" "A") ceChild).2
    (fromAPIVersionAndKind "v1" "B") ceOwner).2

/-- Ingesting `ceOwner` (kind B) then `ceChild` (kind A). -/
def ceOrder2 : Graph :=
  (graphNode "h" (graphNode "h" Graph.empty (fromAPIVersionAndKind "v1" "B") ceOwner).2
    (fromAPIVersionAndKind "v1" "A") ceChild).2

/-- An object of kind "Namespace" in a non-core API group. -/
def ceCustomNamespaceObj : ObjectMeta := ⟨"", [], "myns", "", "nsuid", []⟩

/-- A Pod carrying one label. -/
def c3Pod : ObjectMeta := ⟨"", [("a", "1")], "p", "ns", "uid-p", []⟩

/-- The same Pod with an empty label set. -/
def c3PodEmpty : ObjectMeta := ⟨"", [], "p", "ns", "uid-p", []⟩

/-- The graph holding the labelled Pod. -/
def c3Graph : Graph :=
  (graphNode "h" Graph.empty (fromAPIVersionAndKind "v1" "Pod") c3Pod).2

/-- Two sample nodes used to exercise edge deduplication. -/
def c5X : Node := ⟨"v1", "A", [], "x", "n", "ux"⟩

def c5Y : Node := ⟨"v1", "B", [], "y", "n", "uy"⟩

/-- A sample extractor model: fails exactly on objects of kind "Bad". -/
def exExtractor : ExtractorModel :=
  fun o => ([], if o.kind = "Bad" then some "bad object" else none)

/-- A Pod (dispatched apiVersion, extractor succeeds) with one owner
reference. -/
def exPod : UnstructuredObj :=
  ⟨"v1", "Pod", ⟨"", [], "pod1", "default", "pod-uid",
    [⟨"apps/v1", "ReplicaSet", "rs", "rs-uid"⟩]⟩⟩

/-- An object on which `exExtractor` fails. -/
def exBad : UnstructuredObj := ⟨"v1", "Bad", ⟨"", [], "bad1", "default", "bad-uid", []⟩⟩

/-- A Deployment whose apiVersion selects no extractor. -/
def exDep : UnstructuredObj :=
  ⟨"apps/v1", "Deployment", ⟨"", [], "dep1", "default", "dep-uid", []⟩⟩

/-- A three-object batch with exactly one extractor failure. -/
def exBatch : List UnstructuredObj := [exPod, exBad, exDep]

/-- Whether one object fails extractor-level processing: its apiVersion is
dispatched to an Extractor and that Extractor returns an error. -/
def extractorFails (ext : ExtractorModel) (o : UnstructuredObj) : Bool :=
  decide (o.apiVersion ∈ dispatchedVersions) && (ext o).2.isSome

/-!
## Theorems

First the infrastructure lemmas about association lists, the shapes of
`graphNodeCore`, `graphRelationship` and `graphNode`, and the
`relInsert`/`insertAll` calculus; then one theorem per claim (with
witnesses and counterexamples).
-/

/-- On an object without owner references, `graphNode` is exactly
`graphNodeCore`: this is the shape of every recursive call
`g.Node(..., &metav1.ObjectMeta{...})` in the Go function (such metadata
carries no owner references), justifying the non-recursive definition of
`graphNode`. -/
theorem graphNode_of_no_ownerRefs (hostname : String) (g : Graph)
    (gvk : GroupVersionKind) (obj : ObjectMeta) (h : obj.ownerReferences = []) :
    graphNode hostname g gvk obj = graphNodeCore hostname g gvk obj := by
  unfold graphNode
  split
  · rfl
  · simp only [h, List.foldl_nil]

/-! Known-answer checks for the MD5 embedding (RFC 1321 test vectors). -/

example : md5Hex (strBytes "") = "d41d8cd98f00b204e9800998ecf8427e" := by decide
example : md5Hex (strBytes "a") = "0cc175b9c0f1b6a831c399e269772661" := by decide

/-! ### Association-list lemmas -/

theorem alLookup_alInsert_self {α β : Type} [DecidableEq α] (l : List (α × β))
    (k : α) (v : β) : alLookup (alInsert l k v) k = some v := by
  induction l with
  | nil => simp [alInsert, alLookup]
  | cons p rest ih =>
    obtain ⟨k', v'⟩ := p
    by_cases h : k' = k
    · simp [alInsert, h, alLookup]
    · simp [alInsert, h, alLookup, ih]

theorem alLookup_alInsert_ne {α β : Type} [DecidableEq α] (l : List (α × β))
    (k k' : α) (v : β) (h : k' ≠ k) :
    alLookup (alInsert l k v) k' = alLookup l k' := by
  have hne : ¬ k = k' := fun hh => h hh.symm
  induction l with
  | nil => simp [alInsert, alLookup, hne]
  | cons p rest ih =>
    obtain ⟨k0, v0⟩ := p
    by_cases hk : k0 = k
    · subst hk
      simp [alInsert, alLookup, hne]
    · simp only [alInsert, if_neg hk, alLookup]
      simp [ih]

theorem alLookup_isSome_alInsert {α β : Type} [DecidableEq α] (l : List (α × β))
    (k k' : α) (v : β) (h : (alLookup l k').isSome = true) :
    (alLookup (alInsert l k v) k').isSome = true := by
  by_cases hk : k' = k
  · subst hk; rw [alLookup_alInsert_self]; rfl
  · rw [alLookup_alInsert_ne _ _ _ _ hk]; exact h

theorem mem_alInsert {α β : Type} [DecidableEq α] (l : List (α × β))
    (k : α) (v : β) (e : α × β) (he : e ∈ alInsert l k v) :
    e ∈ l ∨ e = (k, v) := by
  induction l with
  | nil => simpa [alInsert] using he
  | cons p rest ih =>
    obtain ⟨k0, v0⟩ := p
    by_cases hk : k0 = k
    · simp only [alInsert, if_pos hk] at he
      rcases List.mem_cons.mp he with h | h
      · exact Or.inr h
      · exact Or.inl (List.mem_cons_of_mem _ h)
    · simp only [alInsert, if_neg hk] at he
      rcases List.mem_cons.mp he with h | h
      · exact Or.inl (h ▸ List.mem_cons_self _ _)
      · rcases ih h with h' | h'
        · exact Or.inl (List.mem_cons_of_mem _ h')
        · exact Or.inr h'

/-! ### Shape lemmas for the graph operations -/

/-- The node value built by `Graph.Node` (both for stored and transient
nodes): apiVersion/kind from the GVK, labels after the inheritance rule,
name/namespace/UID from the object. -/
theorem graphNodeCore_fst (hostname : String) (g : Graph) (gvk : GroupVersionKind)
    (obj : ObjectMeta) :
    (graphNodeCore hostname g gvk obj).1 =
      ⟨(toAPIVersionAndKind gvk).1, (toAPIVersionAndKind gvk).2,
       inheritedLabels hostname g obj, obj.name, obj.ns, obj.uid⟩ := by
  unfold graphNodeCore inheritedLabels objKey
  split <;> split <;> rfl

theorem graphNodeCore_relationships (hostname : String) (g : Graph)
    (gvk : GroupVersionKind) (obj : ObjectMeta) :
    ((graphNodeCore hostname g gvk obj).2).relationships = g.relationships := by
  unfold graphNodeCore
  split <;> split <;> rfl

/-- The node-registry effect of the non-loop part of `Graph.Node`:
unchanged for Namespace-kind objects, otherwise one map assignment under
the identity key of the object. -/
theorem graphNodeCore_nodes (hostname : String) (g : Graph) (gvk : GroupVersionKind)
    (obj : ObjectMeta) :
    ((graphNodeCore hostname g gvk obj).2).nodes =
      if groupKindString gvk = "Namespace" then g.nodes
      else alInsert g.nodes (objKey hostname obj)
        ⟨(toAPIVersionAndKind gvk).1, (toAPIVersionAndKind gvk).2,
         inheritedLabels hostname g obj, obj.name, obj.ns, obj.uid⟩ := by
  unfold graphNodeCore inheritedLabels objKey
  split <;> split <;> rfl

theorem graphRelationship_nodes (g : Graph) (fromN : Node) (label : String) (toN : Node) :
    ((graphRelationship g fromN label toN).2).nodes = g.nodes := by
  unfold graphRelationship
  split <;> rfl

/-- The relationship-registry effect of one `Graph.Relationship` call is
`relInsert` of the freshly built record. -/
theorem graphRelationship_relationships (g : Graph) (fromN : Node) (label : String)
    (toN : Node) :
    ((graphRelationship g fromN label toN).2).relationships =
      relInsert g.relationships (mkRelationship fromN label toN) := by
  unfold graphRelationship
  cases h : g.relationships.find?
      (fun r => r.fromRef.uid == fromN.uid && r.toRef.uid == toN.uid) with
  | none =>
    have hkey : hasRelKey g.relationships fromN.uid toN.uid = false := by
      unfold hasRelKey
      rw [List.any_eq_false]
      intro r hr
      have := List.find?_eq_none.mp h r hr
      simpa using this
    simp [relInsert, mkRelationship, hkey]
  | some r =>
    have hmem := List.mem_of_find?_eq_some h
    have hp := List.find?_some h
    have hkey : hasRelKey g.relationships fromN.uid toN.uid = true := by
      unfold hasRelKey
      rw [List.any_eq_true]
      exact ⟨r, hmem, hp⟩
    simp [relInsert, mkRelationship, hkey]

theorem graphNode_fst (hostname : String) (g : Graph) (gvk : GroupVersionKind)
    (obj : ObjectMeta) :
    (graphNode hostname g gvk obj).1 = (graphNodeCore hostname g gvk obj).1 := by
  unfold graphNode
  split <;> rfl

/-! ### relInsert / insertAll calculus -/

theorem mem_relInsert {R : List Relationship} {r a : Relationship}
    (h : a ∈ relInsert R r) : a ∈ R ∨ a = r := by
  unfold relInsert at h
  split at h
  · exact Or.inl h
  · rcases List.mem_append.mp h with h' | h'
    · exact Or.inl h'
    · exact Or.inr (List.mem_singleton.mp h')

theorem mem_relInsert_of_mem {R : List Relationship} {a : Relationship}
    (r : Relationship) (h : a ∈ R) : a ∈ relInsert R r := by
  unfold relInsert
  split
  · exact h
  · exact List.mem_append_left _ h

theorem mem_insertAll_of_mem {R : List Relationship} {a : Relationship}
    (L : List Relationship) (h : a ∈ R) : a ∈ insertAll R L := by
  induction L generalizing R with
  | nil => exact h
  | cons l rest ih => exact ih (mem_relInsert_of_mem l h)

theorem mem_insertAll {R L : List Relationship} {a : Relationship}
    (h : a ∈ insertAll R L) : a ∈ R ∨ a ∈ L := by
  induction L generalizing R with
  | nil => exact Or.inl h
  | cons l rest ih =>
    rcases ih h with h' | h'
    · rcases mem_relInsert h' with h'' | h''
      · exact Or.inl h''
      · exact Or.inr (h'' ▸ List.mem_cons_self _ _)
    · exact Or.inr (List.mem_cons_of_mem _ h')

theorem hasRelKey_relInsert_of (R : List Relationship) (r : Relationship)
    (fu tu : String) (h : hasRelKey R fu tu = true) :
    hasRelKey (relInsert R r) fu tu = true := by
  unfold relInsert
  split
  · exact h
  · unfold hasRelKey at h ⊢
    rw [List.any_append, h, Bool.true_or]

theorem hasRelKey_insertAll_of (R : List Relationship) (L : List Relationship)
    (fu tu : String) (h : hasRelKey R fu tu = true) :
    hasRelKey (insertAll R L) fu tu = true := by
  induction L generalizing R with
  | nil => exact h
  | cons l rest ih => exact ih _ (hasRelKey_relInsert_of R l fu tu h)

theorem hasRelKey_relInsert_self (R : List Relationship) (r : Relationship) :
    hasRelKey (relInsert R r) r.fromRef.uid r.toRef.uid = true := by
  unfold relInsert
  split
  · assumption
  · unfold hasRelKey
    rw [List.any_append]
    simp

theorem hasRelKey_insertAll_of_mem {L : List Relationship} (R : List Relationship)
    {c : Relationship} (hc : c ∈ L) :
    hasRelKey (insertAll R L) c.fromRef.uid c.toRef.uid = true := by
  induction L generalizing R with
  | nil => cases hc
  | cons l rest ih =>
    rcases List.mem_cons.mp hc with h | h
    · subst h
      exact hasRelKey_insertAll_of _ rest _ _ (hasRelKey_relInsert_self R c)
    · exact ih _ h

theorem exists_mem_of_hasRelKey {R : List Relationship} {fu tu : String}
    (h : hasRelKey R fu tu = true) :
    ∃ r ∈ R, r.fromRef.uid = fu ∧ r.toRef.uid = tu := by
  unfold hasRelKey at h
  rw [List.any_eq_true] at h
  obtain ⟨r, hr, hp⟩ := h
  rw [Bool.and_eq_true, beq_iff_eq, beq_iff_eq] at hp
  exact ⟨r, hr, hp⟩

theorem hasRelKey_of_mem {R : List Relationship} {r : Relationship}
    (hr : r ∈ R) : hasRelKey R r.fromRef.uid r.toRef.uid = true := by
  unfold hasRelKey
  rw [List.any_eq_true]
  exact ⟨r, hr, by simp⟩

/-! ### The relationship effect of Graph.Node -/

/-- The owner-reference loop of `Graph.Node` only appends to the
relationship registry through `relInsert`; its total effect on the
relationship list is `insertAll` of the per-reference records. -/
theorem foldOwners_relationships (hostname : String) (node : Node) (childNs : String)
    (refs : List OwnerReference) (g : Graph) :
    (refs.foldl (fun gacc ref =>
      let oc := graphNodeCore hostname gacc
        (fromAPIVersionAndKind ref.apiVersion ref.kind) (ownerMeta ref childNs)
      (graphRelationship oc.2 oc.1 node.kind node).2) g).relationships =
    insertAll g.relationships (refs.map (fun ref =>
      ⟨⟨ref.uid, (toAPIVersionAndKind (fromAPIVersionAndKind ref.apiVersion ref.kind)).2⟩,
       node.kind, ⟨node.uid, node.kind⟩, []⟩)) := by
  induction refs generalizing g with
  | nil => rfl
  | cons ref rest ih =>
    rw [List.foldl_cons, List.map_cons, ih]
    simp only [graphRelationship_relationships, graphNodeCore_relationships,
      graphNodeCore_fst]
    rfl

/-- Claim decomposition lemma: the relationship registry after `Graph.Node`
is `insertAll` of `relCalls`, independently of the node registry. -/
theorem graphNode_relationships (hostname : String) (g : Graph)
    (gvk : GroupVersionKind) (obj : ObjectMeta) :
    ((graphNode hostname g gvk obj).2).relationships =
      insertAll g.relationships (relCalls gvk obj) := by
  unfold graphNode relCalls
  split
  · rw [graphNodeCore_relationships]
    rfl
  · show (obj.ownerReferences.foldl _ (graphNodeCore hostname g gvk obj).2).relationships = _
    rw [foldOwners_relationships, graphNodeCore_relationships, graphNodeCore_fst]

theorem mem_relCalls {gvk : GroupVersionKind} {obj : ObjectMeta} {r : Relationship}
    (h : r ∈ relCalls gvk obj) :
    ∃ ref ∈ obj.ownerReferences,
      r = ⟨⟨ref.uid, (toAPIVersionAndKind (fromAPIVersionAndKind ref.apiVersion ref.kind)).2⟩,
           (toAPIVersionAndKind gvk).2, ⟨obj.uid, (toAPIVersionAndKind gvk).2⟩, []⟩ := by
  unfold relCalls at h
  split at h
  · cases h
  · obtain ⟨ref, href, hr⟩ := List.mem_map.mp h
    exact ⟨ref, href, hr.symm⟩

/-! ### Claim C1 -/

/-- C1: for every ingested non-Namespace object and every owner
reference it carries, `Graph.Node` leaves an edge in the relationship
registry whose source UID is the UID of the reference and whose target UID is
the UID of the child; when no edge with that (from, to) pair pre-existed, the
edge is labelled with the kind of the *child* (not of the owner) and its target
reference carries the kind of the child.  In particular, ingesting the example
Deployment D (no owner references) and then the ReplicaSet R (one owner
reference to D) into an empty graph stores exactly two nodes and exactly
one edge, from D to R, labelled "ReplicaSet". -/
theorem c1_owner_edges :
    (∀ (hostname : String) (g : Graph) (gvk : GroupVersionKind) (obj : ObjectMeta),
      groupKindString gvk ≠ "Namespace" →
      ∀ ref ∈ obj.ownerReferences,
        (∃ r ∈ ((graphNode hostname g gvk obj).2).relationships,
          r.fromRef.uid = ref.uid ∧ r.toRef.uid = obj.uid) ∧
        (hasRelKey g.relationships ref.uid obj.uid = false →
          ∃ r ∈ ((graphNode hostname g gvk obj).2).relationships,
            r.fromRef.uid = ref.uid ∧ r.toRef.uid = obj.uid ∧
            r.rtype = (toAPIVersionAndKind gvk).2 ∧
            r.toRef.kind = (toAPIVersionAndKind gvk).2)) ∧
    (exGraph.nodes.length = 2 ∧
      exGraph.relationships =
        [⟨⟨"11111111-1111-1111-1111-111111111111", "Deployment"⟩, "ReplicaSet",
          ⟨"22222222-2222-2222-2222-222222222222", "ReplicaSet"⟩, []⟩]) := by
  constructor
  · intro hostname g gvk obj hns ref href
    have hA := graphNode_relationships hostname g gvk obj
    have hrec :
        (⟨⟨ref.uid, (toAPIVersionAndKind (fromAPIVersionAndKind ref.apiVersion ref.kind)).2⟩,
          (toAPIVersionAndKind gvk).2, ⟨obj.uid, (toAPIVersionAndKind gvk).2⟩, []⟩ :
            Relationship) ∈ relCalls gvk obj := by
      unfold relCalls
      rw [if_neg hns]
      exact List.mem_map_of_mem _ href
    have hkey := hasRelKey_insertAll_of_mem g.relationships hrec
    obtain ⟨r, hrmem, hfu, htu⟩ := exists_mem_of_hasRelKey hkey
    constructor
    · exact ⟨r, by rw [hA]; exact hrmem, hfu, htu⟩
    · intro hfresh
      rcases mem_insertAll hrmem with hold | hnew
      · exfalso
        have := hasRelKey_of_mem hold
        rw [hfu, htu] at this
        rw [hfresh] at this
        cases this
      · obtain ⟨ref', _, hr⟩ := mem_relCalls hnew
        refine ⟨r, by rw [hA]; exact hrmem, hfu, htu, ?_, ?_⟩ <;> rw [hr]
  · constructor
    · decide
    · decide

/-- Witness for C1: the universally quantified part applied to the example
ReplicaSet ingestion (owner reference to the UID of the Deployment), with every
hypothesis discharged concretely. -/
theorem c1_owner_edges_witness :
    ∃ r ∈ ((graphNode "host"
        (graphNode "host" Graph.empty (fromAPIVersionAndKind "apps/v1" "Deployment")
          exDeployment).2
        (fromAPIVersionAndKind "apps/v1" "ReplicaSet") exReplicaSet).2).relationships,
      r.fromRef.uid = "11111111-1111-1111-1111-111111111111" ∧
      r.toRef.uid = "22222222-2222-2222-2222-222222222222" :=
  (c1_owner_edges.1 "host"
    (graphNode "host" Graph.empty (fromAPIVersionAndKind "apps/v1" "Deployment")
      exDeployment).2
    (fromAPIVersionAndKind "apps/v1" "ReplicaSet") exReplicaSet (by decide)
    ⟨"apps/v1", "Deployment", "d", "11111111-1111-1111-1111-111111111111"⟩
    (by decide)).1

/-! ### Permutation lemmas for insertAll (claim C2) -/

theorem hasRelKey_perm {R1 R2 : List Relationship} (h : R1.Perm R2) (fu tu : String) :
    hasRelKey R1 fu tu = hasRelKey R2 fu tu := by
  unfold hasRelKey
  cases hb : R2.any (fun r => r.fromRef.uid == fu && r.toRef.uid == tu) with
  | false =>
    rw [List.any_eq_false] at hb ⊢
    exact fun r hr => hb r (h.subset hr)
  | true =>
    rw [List.any_eq_true] at hb ⊢
    obtain ⟨r, hr, hp⟩ := hb
    exact ⟨r, h.symm.subset hr, hp⟩

theorem insertAll_perm_congr {R1 R2 : List Relationship} (L : List Relationship)
    (h : R1.Perm R2) : (insertAll R1 L).Perm (insertAll R2 L) := by
  induction L generalizing R1 R2 with
  | nil => exact h
  | cons l rest ih =>
    apply ih
    unfold relInsert
    rw [hasRelKey_perm h]
    split
    · exact h
    · exact h.append_right [l]

theorem hasRelKey_append_single (R : List Relationship) (x : Relationship)
    (fu tu : String) (h : ¬(x.fromRef.uid = fu ∧ x.toRef.uid = tu)) :
    hasRelKey (R ++ [x]) fu tu = hasRelKey R fu tu := by
  have hx : (x.fromRef.uid == fu && x.toRef.uid == tu) = false := by
    cases hfu : x.fromRef.uid == fu with
    | false => rw [Bool.false_and]
    | true =>
      cases htu : x.toRef.uid == tu with
      | false => rw [Bool.true_and]
      | true => exact absurd ⟨beq_iff_eq.mp hfu, beq_iff_eq.mp htu⟩ h
  unfold hasRelKey
  rw [List.any_append]
  simp [List.any_cons, List.any_nil, hx]

theorem relInsert_comm_of_ne (R : List Relationship) (a b : Relationship)
    (hne : relKey b ≠ relKey a) :
    (relInsert (relInsert R a) b).Perm (relInsert (relInsert R b) a) := by
  have hba : ¬(b.fromRef.uid = a.fromRef.uid ∧ b.toRef.uid = a.toRef.uid) := by
    intro hc
    exact hne (by unfold relKey; rw [hc.1, hc.2])
  have hab : ¬(a.fromRef.uid = b.fromRef.uid ∧ a.toRef.uid = b.toRef.uid) := by
    intro hc
    exact hba ⟨hc.1.symm, hc.2.symm⟩
  by_cases ha : hasRelKey R a.fromRef.uid a.toRef.uid = true
  · by_cases hb : hasRelKey R b.fromRef.uid b.toRef.uid = true
    · simp only [relInsert, ha, hb, if_true]
      exact List.Perm.refl _
    · simp only [relInsert, ha, hb, hasRelKey_append_single R b _ _ hba, if_true,
        if_false, Bool.false_eq_true, ite_false, ite_true]
      exact List.Perm.refl _
  · by_cases hb : hasRelKey R b.fromRef.uid b.toRef.uid = true
    · simp only [relInsert, ha, hb, hasRelKey_append_single R a _ _ hab, if_true,
        if_false, Bool.false_eq_true, ite_false, ite_true]
      exact List.Perm.refl _
    · simp only [relInsert, ha, hb, hasRelKey_append_single R a _ _ hab,
        hasRelKey_append_single R b _ _ hba, if_false, Bool.false_eq_true,
        ite_false]
      rw [List.append_assoc, List.append_assoc]
      exact List.Perm.append_left R (List.Perm.swap b a [])

theorem insertAll_relInsert_swap (R : List Relationship) (a : Relationship)
    (B : List Relationship) (h : ∀ b ∈ B, relKey b ≠ relKey a) :
    (insertAll (relInsert R a) B).Perm (relInsert (insertAll R B) a) := by
  induction B generalizing R with
  | nil => exact List.Perm.refl _
  | cons b rest ih =>
    have hb := h b (List.mem_cons_self _ _)
    have hrest : ∀ x ∈ rest, relKey x ≠ relKey a :=
      fun x hx => h x (List.mem_cons_of_mem _ hx)
    have s1 : (insertAll (relInsert (relInsert R a) b) rest).Perm
        (insertAll (relInsert (relInsert R b) a) rest) :=
      insertAll_perm_congr rest (relInsert_comm_of_ne R a b hb)
    have s2 : (insertAll (relInsert (relInsert R b) a) rest).Perm
        (relInsert (insertAll (relInsert R b) rest) a) := ih (relInsert R b) hrest
    exact s1.trans s2

theorem insertAll_comm (R : List Relationship) (A B : List Relationship)
    (h : ∀ a ∈ A, ∀ b ∈ B, relKey b ≠ relKey a) :
    (insertAll (insertAll R A) B).Perm (insertAll (insertAll R B) A) := by
  induction A generalizing R with
  | nil => exact List.Perm.refl _
  | cons a A' ih =>
    have ha : ∀ b ∈ B, relKey b ≠ relKey a := h a (List.mem_cons_self _ _)
    have hA' : ∀ x ∈ A', ∀ b ∈ B, relKey b ≠ relKey x :=
      fun x hx => h x (List.mem_cons_of_mem _ hx)
    have s1 : (insertAll (insertAll (relInsert R a) A') B).Perm
        (insertAll (insertAll (relInsert R a) B) A') := ih (relInsert R a) hA'
    have s2 : (insertAll (insertAll (relInsert R a) B) A').Perm
        (insertAll (relInsert (insertAll R B) a) A') :=
      insertAll_perm_congr A' (insertAll_relInsert_swap R a B ha)
    exact s1.trans s2

theorem relCalls_toUid (gvk : GroupVersionKind) (obj : ObjectMeta)
    {r : Relationship} (hr : r ∈ relCalls gvk obj) : r.toRef.uid = obj.uid := by
  obtain ⟨ref, _, hre⟩ := mem_relCalls hr
  rw [hre]

/-! ### Claim C2 -/

/-- C2 counterexample: the claim quantifies over *every* pair of
objects where one names the other in an owner reference.  For the pair
`ceChild`/`ceOwner` — which satisfies that premise, but shares one UID
`"u"` — the two ingestion orders leave different edge labels (first
insertion wins in `Graph.Relationship`), so the final relationship sets
differ: the claim as stated is false. -/
theorem c2_counterexample :
    (∃ ref ∈ ceChild.ownerReferences, ref.uid = ceOwner.uid) ∧
    ¬(∀ t, t ∈ ceOrder1.relationships.map projRel ↔
           t ∈ ceOrder2.relationships.map projRel) := by
  constructor
  · decide
  · intro hall
    have h1 : ("u", "u", "A") ∈ ceOrder1.relationships.map projRel := by decide
    have h2 := (hall ("u", "u", "A")).mp h1
    revert h2
    decide

/-- C2 (amended): for every pair of objects where one names the other
in an owner reference *and whose unique identifiers differ* (the only
change the counterexample forces), ingesting child first and owner later
produces the same final relationship set — same from-identifier,
to-identifier and label for every edge — as the opposite order. -/
theorem c2_order_independence_amended :
    ∀ (hostname : String) (g : Graph) (gvkC gvkP : GroupVersionKind)
      (objC objP : ObjectMeta),
      (∃ ref ∈ objC.ownerReferences, ref.uid = objP.uid) →
      objC.uid ≠ objP.uid →
      ∀ t,
        (t ∈ ((graphNode hostname (graphNode hostname g gvkC objC).2
                gvkP objP).2).relationships.map projRel ↔
         t ∈ ((graphNode hostname (graphNode hostname g gvkP objP).2
                gvkC objC).2).relationships.map projRel) := by
  intro hostname g gvkC gvkP objC objP _ huid t
  simp only [graphNode_relationships]
  have hdisj : ∀ a ∈ relCalls gvkC objC, ∀ b ∈ relCalls gvkP objP,
      relKey b ≠ relKey a := by
    intro a ha b hb heq
    have h1 := relCalls_toUid gvkC objC ha
    have h2 := relCalls_toUid gvkP objP hb
    have h3 : b.toRef.uid = a.toRef.uid := congrArg Prod.snd heq
    rw [h1, h2] at h3
    exact huid h3.symm
  have hperm :=
    insertAll_comm g.relationships (relCalls gvkC objC) (relCalls gvkP objP) hdisj
  exact (hperm.map projRel).mem_iff

/-- Witness for the amended C2, at the example Deployment/ReplicaSet pair
(hypotheses discharged concretely). -/
theorem c2_order_independence_amended_witness :
    (∃ ref ∈ exReplicaSet.ownerReferences, ref.uid = exDeployment.uid) ∧
    exReplicaSet.uid ≠ exDeployment.uid ∧
    (("11111111-1111-1111-1111-111111111111",
      "22222222-2222-2222-2222-222222222222", "ReplicaSet") ∈
        ((graphNode "host"
          (graphNode "host" Graph.empty (fromAPIVersionAndKind "apps/v1" "ReplicaSet")
            exReplicaSet).2
          (fromAPIVersionAndKind "apps/v1" "Deployment") exDeployment).2).relationships.map
            projRel ↔
     ("11111111-1111-1111-1111-111111111111",
      "22222222-2222-2222-2222-222222222222", "ReplicaSet") ∈
        ((graphNode "host"
          (graphNode "host" Graph.empty (fromAPIVersionAndKind "apps/v1" "Deployment")
            exDeployment).2
          (fromAPIVersionAndKind "apps/v1" "ReplicaSet") exReplicaSet).2).relationships.map
            projRel) :=
  ⟨by decide, by decide,
    c2_order_independence_amended "host" Graph.empty
      (fromAPIVersionAndKind "apps/v1" "ReplicaSet")
      (fromAPIVersionAndKind "apps/v1" "Deployment")
      exReplicaSet exDeployment (by decide) (by decide) _⟩

/-! ### Generic preservation through Graph.Node -/

theorem foldOwners_preserve (P : Graph → Prop) (hostname : String) (node : Node)
    (childNs : String)
    (hcore : ∀ g gvk obj, P g → P ((graphNodeCore hostname g gvk obj).2))
    (hrel : ∀ g f l t, P g → P ((graphRelationship g f l t).2)) :
    ∀ (refs : List OwnerReference) (g : Graph), P g →
      P (refs.foldl (fun gacc ref =>
        let oc := graphNodeCore hostname gacc
          (fromAPIVersionAndKind ref.apiVersion ref.kind) (ownerMeta ref childNs)
        (graphRelationship oc.2 oc.1 node.kind node).2) g) := by
  intro refs
  induction refs with
  | nil => exact fun g h => h
  | cons r rest ih =>
    intro g h
    exact ih _ (hrel _ _ _ _ (hcore _ _ _ h))

theorem graphNode_preserve (P : Graph → Prop) (hostname : String)
    (hcore : ∀ g gvk obj, P g → P ((graphNodeCore hostname g gvk obj).2))
    (hrel : ∀ g f l t, P g → P ((graphRelationship g f l t).2))
    (g : Graph) (gvk : GroupVersionKind) (obj : ObjectMeta) (h : P g) :
    P ((graphNode hostname g gvk obj).2) := by
  unfold graphNode
  split
  · exact hcore _ _ _ h
  · exact foldOwners_preserve P hostname _ _ hcore hrel _ _ (hcore _ _ _ h)

/-! ### Claim C3 -/

theorem labels_pres_core (hostname : String) (k : NodeKey)
    (Lab : List (String × String)) (hLab : Lab ≠ []) :
    ∀ (g : Graph) (gvk : GroupVersionKind) (obj : ObjectMeta),
      (∃ n, alLookup g.nodes k = some n ∧ n.labels = Lab) →
      (∃ n', alLookup ((graphNodeCore hostname g gvk obj).2).nodes k = some n' ∧
        n'.labels = Lab) := by
  rintro g gvk obj ⟨n, hmem, hlab⟩
  rw [graphNodeCore_nodes]
  split
  · exact ⟨n, hmem, hlab⟩
  · by_cases hk : objKey hostname obj = k
    · subst hk
      rw [alLookup_alInsert_self]
      refine ⟨_, rfl, ?_⟩
      show inheritedLabels hostname g obj = Lab
      unfold inheritedLabels
      rw [hmem]
      dsimp only
      rw [hlab, if_pos hLab]
    · rw [alLookup_alInsert_ne _ _ _ _ (fun hh => hk hh.symm)]
      exact ⟨n, hmem, hlab⟩

/-- C3: once the registry holds a node with non-empty labels under an
identity key, any later `Graph.Node` call leaves a node with exactly those
labels under that key (in particular a re-insertion supplying an empty
label set cannot erase them), and a re-insertion under the same key returns
a node that inherits the stored labels. -/
theorem c3_label_monotonicity :
    ∀ (hostname : String) (g : Graph) (gvk : GroupVersionKind) (obj : ObjectMeta)
      (k : NodeKey) (n : Node),
      alLookup g.nodes k = some n → n.labels ≠ [] →
      (∃ n', alLookup ((graphNode hostname g gvk obj).2).nodes k = some n' ∧
        n'.labels = n.labels) ∧
      (objKey hostname obj = k → obj.labels = [] →
        ((graphNode hostname g gvk obj).1).labels = n.labels) := by
  intro hostname g gvk obj k n hmem hne
  constructor
  · exact graphNode_preserve
      (fun g' => ∃ n', alLookup g'.nodes k = some n' ∧ n'.labels = n.labels)
      hostname (labels_pres_core hostname k n.labels hne)
      (fun g' f l t hp => by
        obtain ⟨n', h1, h2⟩ := hp
        exact ⟨n', by rw [graphRelationship_nodes]; exact h1, h2⟩)
      g gvk obj ⟨n, hmem, rfl⟩
  · intro hk _
    rw [graphNode_fst, graphNodeCore_fst]
    show inheritedLabels hostname g obj = n.labels
    unfold inheritedLabels
    rw [hk, hmem]
    dsimp only
    rw [if_pos hne]

/-- Witness for C3: a Pod registered with labels `{a: 1}` and re-registered
with an empty label set keeps its stored labels. -/
theorem c3_label_monotonicity_witness :
    ∃ n', alLookup ((graphNode "h" c3Graph (fromAPIVersionAndKind "v1" "Pod")
        c3PodEmpty).2).nodes ("h", "ns", "uid-p") = some n' ∧
      n'.labels = [("a", "1")] :=
  (c3_label_monotonicity "h" c3Graph (fromAPIVersionAndKind "v1" "Pod") c3PodEmpty
    ("h", "ns", "uid-p") ⟨"v1", "Pod", [("a", "1")], "p", "ns", "uid-p"⟩
    (by decide) (by decide)).1

/-! ### Claim C4 -/

/-- GVKs that pass the Namespace guard but still carry the kind
"Namespace" have a non-empty group, so their apiVersion contains `/`. -/
theorem apiVersion_slash_of (gvk : GroupVersionKind)
    (hns : groupKindString gvk ≠ "Namespace")
    (hk : (toAPIVersionAndKind gvk).2 = "Namespace") :
    '/' ∈ ((toAPIVersionAndKind gvk).1).data := by
  unfold toAPIVersionAndKind at hk ⊢
  by_cases he : gvk.isEmpty
  · rw [if_pos he] at hk
    exact absurd hk (by decide)
  · rw [if_neg he] at hk ⊢
    by_cases hg : gvk.group = ""
    · exact absurd (by unfold groupKindString; rw [if_pos hg]; exact hk) hns
    · show '/' ∈ ((if gvk.group = "" then gvk.version
        else gvk.group ++ "/" ++ gvk.version, gvk.kind).1).data
      rw [if_neg hg]
      simp [String.data_append]

theorem noCoreNs_pres_core (hostname : String) :
    ∀ (g : Graph) (gvk : GroupVersionKind) (obj : ObjectMeta),
      (∀ e ∈ g.nodes, ¬ e.2.isCoreNamespace) →
      (∀ e ∈ ((graphNodeCore hostname g gvk obj).2).nodes, ¬ e.2.isCoreNamespace) := by
  intro g gvk obj hP e he
  rw [graphNodeCore_nodes] at he
  split at he
  · exact hP e he
  · rcases mem_alInsert _ _ _ _ he with h' | h'
    · exact hP e h'
    · subst h'
      rintro ⟨hkind, hslash⟩
      exact hslash (apiVersion_slash_of gvk (by assumption) hkind)

/-- C4 counterexample: the claim quantifies over every object of kind
"Namespace", but the guard in `Graph.Node` compares
`gvk.GroupKind().String()` with `"Namespace"`, which only matches the
*empty* API group.  An object of kind "Namespace" in group `example.com`
is written into the registry. -/
theorem c4_counterexample :
    ((graphNode "h" Graph.empty (fromAPIVersionAndKind "example.com/v1" "Namespace")
        ceCustomNamespaceObj).2).nodes.length = 1 ∧
    alLookup ((graphNode "h" Graph.empty
        (fromAPIVersionAndKind "example.com/v1" "Namespace")
        ceCustomNamespaceObj).2).nodes ("h", "", "nsuid") =
      some ⟨"example.com/v1", "Namespace", [], "myns", "", "nsuid"⟩ := by
  exact ⟨by decide, by decide⟩

/-- C4 (amended): every object whose group-kind renders as
`"Namespace"` — i.e. kind "Namespace" in the empty (core) API group, the
only change the counterexample forces — leaves the graph completely
unchanged (a transient node is returned, nothing is stored); and the
registry never contains a core-group Namespace node: if no stored node is
a core Namespace node before a `Graph.Node` call, none is after it. -/
theorem c4_namespace_exclusion_amended :
    ∀ (hostname : String) (g : Graph) (gvk : GroupVersionKind) (obj : ObjectMeta),
      (groupKindString gvk = "Namespace" → (graphNode hostname g gvk obj).2 = g) ∧
      ((∀ e ∈ g.nodes, ¬ e.2.isCoreNamespace) →
        ∀ e ∈ ((graphNode hostname g gvk obj).2).nodes, ¬ e.2.isCoreNamespace) := by
  intro hostname g gvk obj
  constructor
  · intro hns
    simp [graphNode, graphNodeCore, hns]
  · intro hP
    exact graphNode_preserve (fun g' => ∀ e ∈ g'.nodes, ¬ e.2.isCoreNamespace)
      hostname (noCoreNs_pres_core hostname)
      (fun g' f l t hp e he => hp e (by rwa [graphRelationship_nodes] at he))
      g gvk obj hP

/-- Witness for the amended C4: ingesting a core-group Namespace object
into the empty graph leaves it empty. -/
theorem c4_namespace_exclusion_amended_witness :
    (graphNode "h" Graph.empty (fromAPIVersionAndKind "v1" "Namespace")
      ceCustomNamespaceObj).2 = Graph.empty :=
  (c4_namespace_exclusion_amended "h" Graph.empty
    (fromAPIVersionAndKind "v1" "Namespace") ceCustomNamespaceObj).1 (by decide)

/-! ### Claim C5 -/

theorem find?_append_none {α : Type} (l1 l2 : List α) (p : α → Bool)
    (h : l1.find? p = none) : (l1 ++ l2).find? p = l2.find? p := by
  induction l1 with
  | nil => rfl
  | cons a rest ih =>
    cases hpa : p a with
    | true =>
      rw [List.find?_cons_of_pos _ hpa] at h
      cases h
    | false =>
      have hpa' : ¬ p a = true := by rw [hpa]; exact Bool.false_ne_true
      rw [List.find?_cons_of_neg _ hpa'] at h
      rw [List.cons_append, List.find?_cons_of_neg _ hpa']
      exact ih h

theorem filter_eq_nil_of {α : Type} (l : List α) (p : α → Bool)
    (h : ∀ a ∈ l, p a = false) : l.filter p = [] := by
  induction l with
  | nil => rfl
  | cons a rest ih =>
    rw [List.filter_cons]
    rw [h a (List.mem_cons_self _ _)]
    simpa using ih (fun b hb => h b (List.mem_cons_of_mem _ hb))

/-- C5: starting from a graph with no edge between `x` and `y`,
registering `(x, L1, y)` and then `(x, L2, y)` leaves the graph of the
first insertion unchanged: the second call returns the existing
relationship (label `L1`, the empty attribute map of the first insertion) and
the registry holds exactly one edge from `x` to `y`. -/
theorem c5_edge_dedup :
    ∀ (g : Graph) (x y : Node) (L1 L2 : String),
      hasRelKey g.relationships x.uid y.uid = false →
      (graphRelationship (graphRelationship g x L1 y).2 x L2 y).1 =
        (graphRelationship g x L1 y).1 ∧
      (graphRelationship (graphRelationship g x L1 y).2 x L2 y).2 =
        (graphRelationship g x L1 y).2 ∧
      (graphRelationship g x L1 y).1 = mkRelationship x L1 y ∧
      (graphRelationship g x L1 y).1.rtype = L1 ∧
      (graphRelationship g x L1 y).1.attr = [] ∧
      ((graphRelationship (graphRelationship g x L1 y).2 x L2 y).2).relationships.filter
          (fun r => r.fromRef.uid == x.uid && r.toRef.uid == y.uid) =
        [(graphRelationship g x L1 y).1] := by
  intro g x y L1 L2 hfresh
  have hall : ∀ r ∈ g.relationships,
      ¬((fun r => r.fromRef.uid == x.uid && r.toRef.uid == y.uid) r = true) := by
    intro r hr hp
    unfold hasRelKey at hfresh
    rw [List.any_eq_false] at hfresh
    exact hfresh r hr hp
  have hallF : ∀ r ∈ g.relationships,
      (fun r => r.fromRef.uid == x.uid && r.toRef.uid == y.uid) r = false := by
    intro r hr
    cases hp : (fun r => r.fromRef.uid == x.uid && r.toRef.uid == y.uid) r with
    | true => exact absurd hp (hall r hr)
    | false => rfl
  have hfind1 : g.relationships.find?
      (fun r => r.fromRef.uid == x.uid && r.toRef.uid == y.uid) = none :=
    List.find?_eq_none.mpr hall
  have e1 : graphRelationship g x L1 y =
      (mkRelationship x L1 y,
       { nodes := g.nodes,
         relationships := g.relationships ++ [mkRelationship x L1 y] }) := by
    unfold graphRelationship
    rw [hfind1]
  have hfind2 : (g.relationships ++ [mkRelationship x L1 y]).find?
      (fun r => r.fromRef.uid == x.uid && r.toRef.uid == y.uid) =
      some (mkRelationship x L1 y) := by
    rw [find?_append_none _ _ _ hfind1]
    simp [List.find?, mkRelationship]
  have e2 : graphRelationship (graphRelationship g x L1 y).2 x L2 y =
      (mkRelationship x L1 y, (graphRelationship g x L1 y).2) := by
    rw [e1]
    unfold graphRelationship
    dsimp only
    rw [hfind2]
  refine ⟨?_, ?_, ?_, ?_, ?_, ?_⟩
  · rw [e2, e1]
  · rw [e2]
  · rw [e1]
  · rw [e1]
    rfl
  · rw [e1]
    rfl
  · rw [e2, e1]
    dsimp only
    rw [List.filter_append, filter_eq_nil_of _ _ hallF]
    simp [List.filter, mkRelationship]

/-- Witness for C5 at two concrete nodes and labels. -/
theorem c5_edge_dedup_witness :
    (graphRelationship (graphRelationship Graph.empty c5X "l1" c5Y).2 c5X "l2" c5Y).2 =
      (graphRelationship Graph.empty c5X "l1" c5Y).2 ∧
    (graphRelationship Graph.empty c5X "l1" c5Y).1.rtype = "l1" :=
  ⟨(c5_edge_dedup Graph.empty c5X c5Y "l1" "l2" (by decide)).2.1,
   (c5_edge_dedup Graph.empty c5X c5Y "l1" "l2" (by decide)).2.2.2.1⟩

/-! ### Claim C6 -/

theorem leBytes_length (x n : Nat) : (leBytes x n).length = n := by
  simp [leBytes]

theorem leBytes_lt (x n : Nat) : ∀ b ∈ leBytes x n, b < 256 := by
  intro b hb
  simp only [leBytes, List.mem_map] at hb
  obtain ⟨i, _, rfl⟩ := hb
  exact Nat.mod_lt _ (by decide)

theorem md5Bytes_length (msg : List Nat) : (md5Bytes msg).length = 16 := by
  simp [md5Bytes, leBytes_length]

theorem md5Bytes_lt (msg : List Nat) : ∀ b ∈ md5Bytes msg, b < 256 := by
  intro b hb
  simp only [md5Bytes, List.mem_append] at hb
  rcases hb with ((h | h) | h) | h <;> exact leBytes_lt _ _ _ h

theorem flatten_map_byteHex_length (bs : List Nat) :
    ((bs.map byteHex).flatten).length = 2 * bs.length := by
  induction bs with
  | nil => rfl
  | cons b rest ih =>
    simp only [List.map_cons, List.flatten_cons, List.length_append, ih,
      List.length_cons]
    show 2 + 2 * rest.length = 2 * (rest.length + 1)
    omega

theorem hexDigitChar_mem (n : Nat) (hn : n < 16) : hexDigitChar n ∈ hexDigits := by
  interval_cases n <;> decide

theorem mem_byteHex (b : Nat) (hb : b < 256) (c : Char) (hc : c ∈ byteHex b) :
    c ∈ hexDigits := by
  rcases List.mem_cons.mp hc with h | h
  · subst h
    exact hexDigitChar_mem _ (Nat.div_lt_of_lt_mul (by omega))
  · rcases List.mem_cons.mp h with h' | h'
    · subst h'
      exact hexDigitChar_mem _ (Nat.mod_lt _ (by decide))
    · cases h'

theorem md5Hex_length (msg : List Nat) : (md5Hex msg).data.length = 32 := by
  show (((md5Bytes msg).map byteHex).flatten).length = 32
  rw [flatten_map_byteHex_length, md5Bytes_length]

theorem md5Hex_hex (msg : List Nat) : ∀ c ∈ (md5Hex msg).data, c ∈ hexDigits := by
  intro c hc
  have hc' : c ∈ ((md5Bytes msg).map byteHex).flatten := hc
  rw [List.mem_flatten] at hc'
  obtain ⟨l, hl, hcl⟩ := hc'
  rw [List.mem_map] at hl
  obtain ⟨b, hb, rfl⟩ := hl
  exact mem_byteHex b (md5Bytes_lt msg b hb) c hcl

/-- C6 counterexample: `ToUID` pre-allocates `len(params)` slots with
`make` and then appends, so the hashed byte sequence carries leading
separators; on the single parameter `"a"` the code hashes `"-a"` while the
algorithm of the spec hashes `"a"`, and the outputs differ. -/
theorem c6_counterexample :
    toUID ["a"] = "37caf0ee-2622-29a9-ddc6-0877eec6883f" ∧
    toUID_specAlgorithm ["a"] = "0cc175b9-c0f1-b6a8-31c3-99e269772661" ∧
    toUID ["a"] ≠ toUID_specAlgorithm ["a"] :=
  ⟨by decide, by decide, by decide⟩

/-- C6 (amended): for every parameter sequence, the output of the identity
generator is the hyphen-grouped (8-4-4-4-12 hex digits) rendering
of the MD5 digest of the byte sequence obtained by joining
`len(params)` *empty strings followed by* the stringified parameters with
the separator — the empty prefix created by the `make`-then-`append` slip
being the only change the counterexample forces.  The digest is 32
lower-case hex digits and the five groups have lengths 8, 4, 4, 4, 12. -/
theorem c6_uid_amended (params : List String) :
    toUID params = String.intercalate "-"
      [String.mk ((toUIDDigest params).data.take 8),
       String.mk (((toUIDDigest params).data.drop 8).take 4),
       String.mk (((toUIDDigest params).data.drop 12).take 4),
       String.mk (((toUIDDigest params).data.drop 16).take 4),
       String.mk ((toUIDDigest params).data.drop 20)] ∧
    (toUIDDigest params).data.length = 32 ∧
    (∀ c ∈ (toUIDDigest params).data, c ∈ hexDigits) ∧
    ((toUIDDigest params).data.take 8).length = 8 ∧
    (((toUIDDigest params).data.drop 8).take 4).length = 4 ∧
    (((toUIDDigest params).data.drop 12).take 4).length = 4 ∧
    (((toUIDDigest params).data.drop 16).take 4).length = 4 ∧
    ((toUIDDigest params).data.drop 20).length = 12 := by
  have hlen : (toUIDDigest params).data.length = 32 := md5Hex_length _
  refine ⟨rfl, hlen, md5Hex_hex _, ?_, ?_, ?_, ?_, ?_⟩ <;>
    simp [List.length_take, List.length_drop, hlen]

/-! ### Claim C7 -/

theorem hasNodeKey_core_mono (hostname : String) (k : NodeKey) :
    ∀ (g : Graph) (gvk : GroupVersionKind) (obj : ObjectMeta),
      hasNodeKey g k = true → hasNodeKey ((graphNodeCore hostname g gvk obj).2) k = true := by
  intro g gvk obj h
  unfold hasNodeKey at h ⊢
  rw [graphNodeCore_nodes]
  split
  · exact h
  · exact alLookup_isSome_alInsert _ _ _ _ h

theorem hasNodeKey_rel_mono (k : NodeKey) :
    ∀ (g : Graph) (f : Node) (l : String) (t : Node),
      hasNodeKey g k = true → hasNodeKey ((graphRelationship g f l t).2) k = true := by
  intro g f l t h
  unfold hasNodeKey at h ⊢
  rw [graphRelationship_nodes]
  exact h

theorem hasNodeKey_graphNode_mono (hostname : String) (k : NodeKey)
    (g : Graph) (gvk : GroupVersionKind) (obj : ObjectMeta)
    (h : hasNodeKey g k = true) :
    hasNodeKey ((graphNode hostname g gvk obj).2) k = true :=
  graphNode_preserve (fun g' => hasNodeKey g' k = true) hostname
    (hasNodeKey_core_mono hostname k) (hasNodeKey_rel_mono k) g gvk obj h

theorem hasRelKey_core_mono (hostname : String) (fu tu : String) :
    ∀ (g : Graph) (gvk : GroupVersionKind) (obj : ObjectMeta),
      hasRelKey g.relationships fu tu = true →
      hasRelKey ((graphNodeCore hostname g gvk obj).2).relationships fu tu = true := by
  intro g gvk obj h
  rw [graphNodeCore_relationships]
  exact h

theorem hasRelKey_rel_mono (fu tu : String) :
    ∀ (g : Graph) (f : Node) (l : String) (t : Node),
      hasRelKey g.relationships fu tu = true →
      hasRelKey ((graphRelationship g f l t).2).relationships fu tu = true := by
  intro g f l t h
  rw [graphRelationship_relationships]
  exact hasRelKey_relInsert_of _ _ _ _ h

theorem hasRelKey_graphNode_mono (hostname : String) (fu tu : String)
    (g : Graph) (gvk : GroupVersionKind) (obj : ObjectMeta)
    (h : hasRelKey g.relationships fu tu = true) :
    hasRelKey ((graphNode hostname g gvk obj).2).relationships fu tu = true :=
  graphNode_preserve (fun g' => hasRelKey g'.relationships fu tu = true) hostname
    (hasRelKey_core_mono hostname fu tu) (hasRelKey_rel_mono fu tu) g gvk obj h

theorem applyCalls_preserve (P : Graph → Prop) (hostname : String)
    (hnode : ∀ g gvk obj, P g → P ((graphNode hostname g gvk obj).2))
    (hrel : ∀ g f l t, P g → P ((graphRelationship g f l t).2)) :
    ∀ (calls : List RegCall) (g : Graph), P g →
      P (calls.foldl (applyCall hostname) g) := by
  intro calls
  induction calls with
  | nil => exact fun g h => h
  | cons c rest ih =>
    intro g h
    apply ih
    cases c with
    | nodeCall gvk obj => exact hnode _ _ _ h
    | relCall f l t => exact hrel _ _ _ _ h

theorem graphUnstructured_preserve (P : Graph → Prop) (hostname : String)
    (ext : ExtractorModel)
    (hnode : ∀ g gvk obj, P g → P ((graphNode hostname g gvk obj).2))
    (hrel : ∀ g f l t, P g → P ((graphRelationship g f l t).2)) :
    ∀ (g : Graph) (obj : UnstructuredObj), P g →
      P ((graphUnstructured hostname ext g obj).1) := by
  intro g obj h
  unfold graphUnstructured
  split
  · exact applyCalls_preserve P hostname hnode hrel _ _ (hnode _ _ _ h)
  · exact hnode _ _ _ h

theorem newGraphFold_preserve (P : Graph → Prop) (hostname : String)
    (ext : ExtractorModel)
    (hnode : ∀ g gvk obj, P g → P ((graphNode hostname g gvk obj).2))
    (hrel : ∀ g f l t, P g → P ((graphRelationship g f l t).2)) :
    ∀ (objs : List UnstructuredObj) (acc : Graph × List String), P acc.1 →
      P ((objs.foldl (fun acc obj =>
        let r := graphUnstructured hostname ext acc.1 obj
        (r.1, match r.2 with | some e => acc.2 ++ [e] | none => acc.2)) acc).1) := by
  intro objs
  induction objs with
  | nil => exact fun acc h => h
  | cons o rest ih =>
    intro acc h
    exact ih _ (graphUnstructured_preserve P hostname ext hnode hrel _ _ h)

theorem hasNodeKey_after_graphNode (hostname : String) (g : Graph)
    (gvk : GroupVersionKind) (obj : ObjectMeta)
    (hns : groupKindString gvk ≠ "Namespace") :
    hasNodeKey ((graphNode hostname g gvk obj).2) (objKey hostname obj) = true := by
  have hbase : hasNodeKey ((graphNodeCore hostname g gvk obj).2) (objKey hostname obj) = true := by
    unfold hasNodeKey
    rw [graphNodeCore_nodes, if_neg hns, alLookup_alInsert_self]
    rfl
  unfold graphNode
  split
  · exact hbase
  · exact foldOwners_preserve (fun g' => hasNodeKey g' (objKey hostname obj) = true)
      hostname _ _ (hasNodeKey_core_mono hostname _) (hasNodeKey_rel_mono _) _ _ hbase

theorem hasRelKey_after_graphNode (hostname : String) (g : Graph)
    (gvk : GroupVersionKind) (obj : ObjectMeta)
    (hns : groupKindString gvk ≠ "Namespace") {ref : OwnerReference}
    (href : ref ∈ obj.ownerReferences) :
    hasRelKey ((graphNode hostname g gvk obj).2).relationships ref.uid obj.uid = true := by
  rw [graphNode_relationships]
  have hrec :
      (⟨⟨ref.uid, (toAPIVersionAndKind (fromAPIVersionAndKind ref.apiVersion ref.kind)).2⟩,
        (toAPIVersionAndKind gvk).2, ⟨obj.uid, (toAPIVersionAndKind gvk).2⟩, []⟩ :
          Relationship) ∈ relCalls gvk obj := by
    unfold relCalls
    rw [if_neg hns]
    exact List.mem_map_of_mem _ href
  exact hasRelKey_insertAll_of_mem g.relationships hrec

theorem graphUnstructured_establishes (hostname : String) (ext : ExtractorModel)
    (g : Graph) (obj : UnstructuredObj)
    (hns : groupKindString (fromAPIVersionAndKind obj.apiVersion obj.kind) ≠ "Namespace") :
    hasNodeKey ((graphUnstructured hostname ext g obj).1) (objKey hostname obj.meta) = true ∧
    ∀ ref ∈ obj.meta.ownerReferences,
      hasRelKey ((graphUnstructured hostname ext g obj).1).relationships
        ref.uid obj.meta.uid = true := by
  unfold graphUnstructured
  constructor
  · split
    · exact applyCalls_preserve (fun g' => hasNodeKey g' (objKey hostname obj.meta) = true)
        hostname (fun g' gvk o => hasNodeKey_graphNode_mono hostname _ g' gvk o)
        (fun g' f l t => hasNodeKey_rel_mono _ g' f l t) _ _
        (hasNodeKey_after_graphNode hostname g _ obj.meta hns)
    · exact hasNodeKey_after_graphNode hostname g _ obj.meta hns
  · intro ref href
    split
    · exact applyCalls_preserve
        (fun g' => hasRelKey g'.relationships ref.uid obj.meta.uid = true)
        hostname (fun g' gvk o => hasRelKey_graphNode_mono hostname _ _ g' gvk o)
        (fun g' f l t => hasRelKey_rel_mono _ _ g' f l t) _ _
        (hasRelKey_after_graphNode hostname g _ obj.meta hns href)
    · exact hasRelKey_after_graphNode hostname g _ obj.meta hns href

/-- The error component of one `Graph.Unstructured` call. -/
theorem graphUnstructured_err (hostname : String) (ext : ExtractorModel)
    (g : Graph) (obj : UnstructuredObj) :
    (graphUnstructured hostname ext g obj).2 =
      if obj.apiVersion ∈ dispatchedVersions then (ext obj).2 else none := by
  unfold graphUnstructured
  split
  · rfl
  · rfl

theorem newGraphFold_errs (hostname : String) (ext : ExtractorModel) :
    ∀ (objs : List UnstructuredObj) (acc : Graph × List String),
      (objs.foldl (fun acc obj =>
        let r := graphUnstructured hostname ext acc.1 obj
        (r.1, match r.2 with | some e => acc.2 ++ [e] | none => acc.2)) acc).2 =
      acc.2 ++ objs.filterMap
        (fun o => if o.apiVersion ∈ dispatchedVersions then (ext o).2 else none) := by
  intro objs
  induction objs with
  | nil => intro acc; simp
  | cons o rest ih =>
    intro acc
    rw [List.foldl_cons, ih]
    dsimp only
    rw [graphUnstructured_err]
    cases hcase : (if o.apiVersion ∈ dispatchedVersions then (ext o).2 else none) with
    | none => simp [List.filterMap_cons, hcase]
    | some e => simp [List.filterMap_cons, hcase]

theorem length_filterMap_isSome {α β : Type} (f : α → Option β) :
    ∀ l : List α, (l.filterMap f).length = (l.filter (fun a => (f a).isSome)).length := by
  intro l
  induction l with
  | nil => rfl
  | cons a rest ih =>
    rw [List.filterMap_cons, List.filter_cons]
    cases hfa : f a with
    | none => simpa [hfa] using ih
    | some b => simpa [hfa] using ih

/-- C7: `NewGraph` processes the whole batch: the collected error list
is exactly the per-object extractor errors in batch order (so its length is
the number K of failing objects, and the aggregate error is nil when
K = 0), and generic node registration and ownership edges are performed for
every object — failing ones included — because node registration precedes
extractor dispatch. -/
theorem c7_partial_failure (hostname : String) (ext : ExtractorModel)
    (objs : List UnstructuredObj) :
    (newGraph hostname ext objs).2 = objs.filterMap
      (fun o => if o.apiVersion ∈ dispatchedVersions then (ext o).2 else none) ∧
    (newGraph hostname ext objs).2.length = (objs.filter (extractorFails ext)).length ∧
    (objs.filter (extractorFails ext) = [] →
      aggregateError (newGraph hostname ext objs).2 = none) ∧
    (∀ obj ∈ objs,
      groupKindString (fromAPIVersionAndKind obj.apiVersion obj.kind) ≠ "Namespace" →
      hasNodeKey (newGraph hostname ext objs).1 (objKey hostname obj.meta) = true ∧
      ∀ ref ∈ obj.meta.ownerReferences,
        hasRelKey ((newGraph hostname ext objs).1).relationships
          ref.uid obj.meta.uid = true) := by
  have herrs : (newGraph hostname ext objs).2 = objs.filterMap
      (fun o => if o.apiVersion ∈ dispatchedVersions then (ext o).2 else none) := by
    unfold newGraph
    rw [newGraphFold_errs]
    rfl
  have hfun : (fun o : UnstructuredObj =>
      ((if o.apiVersion ∈ dispatchedVersions then (ext o).2 else none)).isSome) =
      extractorFails ext := by
    funext o
    unfold extractorFails
    by_cases hmem : o.apiVersion ∈ dispatchedVersions
    · simp [hmem]
    · simp [hmem]
  have hlen : (newGraph hostname ext objs).2.length =
      (objs.filter (extractorFails ext)).length := by
    rw [herrs, length_filterMap_isSome, hfun]
  refine ⟨herrs, hlen, ?_, ?_⟩
  · intro hnil
    rw [aggregateError]
    have : (newGraph hostname ext objs).2.length = 0 := by rw [hlen, hnil]; rfl
    rw [List.length_eq_zero] at this
    rw [if_pos this]
  · intro obj hobj hns
    -- establish at the step of obj, then preserve through the rest of the batch
    unfold newGraph
    have main : ∀ (l : List UnstructuredObj) (acc : Graph × List String),
        obj ∈ l ∨ (hasNodeKey acc.1 (objKey hostname obj.meta) = true ∧
          ∀ ref ∈ obj.meta.ownerReferences,
            hasRelKey acc.1.relationships ref.uid obj.meta.uid = true) →
        hasNodeKey ((l.foldl (fun acc obj =>
          let r := graphUnstructured hostname ext acc.1 obj
          (r.1, match r.2 with | some e => acc.2 ++ [e] | none => acc.2)) acc).1)
            (objKey hostname obj.meta) = true ∧
        ∀ ref ∈ obj.meta.ownerReferences,
          hasRelKey (((l.foldl (fun acc obj =>
            let r := graphUnstructured hostname ext acc.1 obj
            (r.1, match r.2 with | some e => acc.2 ++ [e] | none => acc.2)) acc).1)).relationships
              ref.uid obj.meta.uid = true := by
      intro l
      induction l with
      | nil =>
        intro acc h
        rcases h with h | h
        · cases h
        · exact h
      | cons o rest ih =>
        intro acc h
        rcases h with h | h
        · rcases List.mem_cons.mp h with h' | h'
          · subst h'
            apply ih
            right
            exact graphUnstructured_establishes hostname ext acc.1 obj hns
          · exact ih _ (Or.inl h')
        · apply ih
          right
          constructor
          · exact graphUnstructured_preserve
              (fun g' => hasNodeKey g' (objKey hostname obj.meta) = true) hostname ext
              (fun g' gvk o' => hasNodeKey_graphNode_mono hostname _ g' gvk o')
              (fun g' f lb t => hasNodeKey_rel_mono _ g' f lb t) _ _ h.1
          · intro ref href
            exact graphUnstructured_preserve
              (fun g' => hasRelKey g'.relationships ref.uid obj.meta.uid = true)
              hostname ext
              (fun g' gvk o' => hasRelKey_graphNode_mono hostname _ _ g' gvk o')
              (fun g' f lb t => hasRelKey_rel_mono _ _ g' f lb t) _ _ (h.2 ref href)
    exact main objs (Graph.empty, []) (Or.inl hobj)

/-- Witness for C7 on the three-object batch `exBatch` (one extractor
failure): one collected error, and the failing-independent node and edge
registration checked for the Pod. -/
theorem c7_partial_failure_witness :
    (newGraph "h" exExtractor exBatch).2.length = 1 ∧
    hasNodeKey (newGraph "h" exExtractor exBatch).1 ("h", "default", "pod-uid") = true ∧
    hasRelKey ((newGraph "h" exExtractor exBatch).1).relationships
      "rs-uid" "pod-uid" = true := by
  have h := c7_partial_failure "h" exExtractor exBatch
  refine ⟨?_, ?_, ?_⟩
  · rw [h.2.1]
    decide
  · exact (h.2.2.2 exPod (by decide) (by decide)).1
  · exact (h.2.2.2 exPod (by decide) (by decide)).2
      ⟨"apps/v1", "ReplicaSet", "rs", "rs-uid"⟩ (by decide)

/-! ### Claim C8 -/

theorem insertionSort_map_perm_congr (f : String × String → String)
    {m₁ m₂ : List (String × String)} (hp : m₁.Perm m₂) :
    List.insertionSort (· ≤ ·) (m₁.map f) = List.insertionSort (· ≤ ·) (m₂.map f) := by
  exact List.eq_of_perm_of_sorted
    (((List.perm_insertionSort _ _).trans (hp.map f)).trans
      (List.perm_insertionSort _ _).symm)
    (List.sorted_insertionSort _ _) (List.sorted_insertionSort _ _)

/-- C8: both renderings are determined by the map contents alone
(permuting the entry list leaves the output unchanged), the rendered clause
lists are sorted lexicographically, and every clause has the documented
shape (`node.Label_<normalized key> = "<value>"` for labels,
`key="value"` for attributes). -/
theorem c8_rendering_deterministic :
    ∀ (l₁ l₂ : List (String × String)), l₁.Perm l₂ →
      labelsString l₁ = labelsString l₂ ∧
      attrsString l₁ = attrsString l₂ ∧
      List.Sorted (· ≤ ·) (labelSelector l₁) ∧
      List.Sorted (· ≤ ·) (attrSelector l₁) ∧
      (∀ c ∈ labelSelector l₁, ∃ p ∈ l₁,
        c = "node.Label_" ++ normalizeLabelKey p.1 ++ " = \"" ++ p.2 ++ "\"") ∧
      (∀ c ∈ attrSelector l₁, ∃ p ∈ l₁, c = p.1 ++ "=\"" ++ p.2 ++ "\"") := by
  intro l₁ l₂ hperm
  refine ⟨?_, ?_, ?_, ?_, ?_, ?_⟩
  · unfold labelsString labelSelector
    rw [insertionSort_map_perm_congr labelClause hperm]
  · unfold attrsString attrSelector
    rw [insertionSort_map_perm_congr attrClause hperm]
  · exact List.sorted_insertionSort _ _
  · exact List.sorted_insertionSort _ _
  · intro c hc
    have hc' : c ∈ l₁.map labelClause := (List.perm_insertionSort _ _).subset hc
    obtain ⟨p, hp, hcp⟩ := List.mem_map.mp hc'
    exact ⟨p, hp, hcp.symm⟩
  · intro c hc
    have hc' : c ∈ l₁.map attrClause := (List.perm_insertionSort _ _).subset hc
    obtain ⟨p, hp, hcp⟩ := List.mem_map.mp hc'
    exact ⟨p, hp, hcp.symm⟩

/-- Witness for C8: two orderings of the same two-entry maps render
identically. -/
theorem c8_rendering_deterministic_witness :
    labelsString [("a", "1"), ("B c", "2")] = labelsString [("B c", "2"), ("a", "1")] ∧
    attrsString [("a", "1"), ("B c", "2")] = attrsString [("B c", "2"), ("a", "1")] :=
  ⟨(c8_rendering_deterministic [("a", "1"), ("B c", "2")] [("B c", "2"), ("a", "1")]
      (by decide)).1,
   (c8_rendering_deterministic [("a", "1"), ("B c", "2")] [("B c", "2"), ("a", "1")]
      (by decide)).2.1⟩

/-! ### Claims C9 and C10 -/

/-- C9: writing through `Graph.Write` succeeds exactly for the two
registered template names "cypher" and "graphviz" and errors for every
other format string; `Write` has a value receiver and returns only the
error, so a failed render leaves the graph untouched by construction. -/
theorem c9_write_formats :
    ∀ (render : String → Graph → String) (g : Graph) (format : String),
      (graphWrite render g format = none ↔ format = "cypher" ∨ format = "graphviz") := by
  intro render g format
  unfold graphWrite executeTemplate
  split
  · rename_i h
    exact ⟨fun _ => h, fun _ => rfl⟩
  · rename_i h
    constructor
    · intro hc
      cases hc
    · intro hc
      exact absurd hc h

/-- Witness for C9: a registered and an unregistered format. -/
theorem c9_write_formats_witness :
    graphWrite (fun _ _ => "") Graph.empty "cypher" = none ∧
    ¬ graphWrite (fun _ _ => "") Graph.empty "yaml" = none :=
  ⟨(c9_write_formats (fun _ _ => "") Graph.empty "cypher").mpr (Or.inl rfl),
   fun h => by
    rcases (c9_write_formats (fun _ _ => "") Graph.empty "yaml").mp h with h' | h' <;>
      exact absurd h' (by decide)⟩

/-- C10: `Graph.String` returns the buffered text and discards the
error from the underlying `Write`: its result type carries no failure
signal, and for an unrecognized format — where the template engine errors
before writing anything — it returns the empty string even though the
discarded `Write` error is present. -/
theorem c10_string_swallows_error :
    ∀ (render : String → Graph → String) (g : Graph) (format : String),
      graphString render g format = (executeTemplate render format g).1 ∧
      (format ≠ "cypher" → format ≠ "graphviz" →
        graphString render g format = "" ∧
        (graphWrite render g format).isSome = true) := by
  intro render g format
  refine ⟨rfl, ?_⟩
  intro h1 h2
  have hne : ¬(format = "cypher" ∨ format = "graphviz") := by
    rintro (h | h)
    · exact h1 h
    · exact h2 h
  constructor
  · unfold graphString executeTemplate
    rw [if_neg hne]
  · unfold graphWrite executeTemplate
    rw [if_neg hne]
    rfl

/-- Witness for C10 at the unrecognized format "yaml". -/
theorem c10_string_swallows_error_witness :
    graphString (fun _ _ => "") Graph.empty "yaml" = "" ∧
    (graphWrite (fun _ _ => "") Graph.empty "yaml").isSome = true :=
  (c10_string_swallows_error (fun _ _ => "") Graph.empty "yaml").2
    (by decide) (by decide)

/-- Witness for the amended C6 at the one-parameter input `["a"]`. -/
theorem c6_uid_amended_witness :
    toUID ["a"] = String.intercalate "-"
      [String.mk ((toUIDDigest ["a"]).data.take 8),
       String.mk (((toUIDDigest ["a"]).data.drop 8).take 4),
       String.mk (((toUIDDigest ["a"]).data.drop 12).take 4),
       String.mk (((toUIDDigest ["a"]).data.drop 16).take 4),
       String.mk ((toUIDDigest ["a"]).data.drop 20)] ∧
    (toUIDDigest ["a"]).data.length = 32 :=
  ⟨(c6_uid_amended ["a"]).1, (c6_uid_amended ["a"]).2.1⟩

end KubectlGraph
